import Mathlib

/-!
Verification of the spade-port grid oracle.

The repository's only source file, `src/oracle-tools/spade-grid3x3-oracle/src/main.rs`,
builds a Delaunay triangulation of the 9 points of the 3x3 integer grid using the
`spade` triangulation engine, then extracts the inner faces, converts every vertex
position to its row-major grid index (`y*3+x`), sorts each index triple, sorts the
list of triples, and prints the result.

The triangulation engine itself (`DelaunayTriangulation`, `insert`, `inner_faces`)
is not part of the repository's sources, only its caller is.  Following the spec,
the engine is modelled here from the spec's own description: exact integer
orientation and in-circle predicates (spec 4.1), co-circular ties resolved by a
consistent lexicographic symbolic perturbation (spec 4.1), the Delaunay property as
the invariant of the finished mesh (spec 4.5 and 8), `DuplicatePoint` aborting the
batch (spec 4.4, 5 and 7), and the outer "super-structure" face excluded from
extraction (spec 4.6).  All grid coordinates are the exact small integers 0, 1, 2,
which `f64` represents exactly, so the embedding uses `ℤ` coordinates.
-/

namespace SpadeOracle

/-- A planar point with exact integer coordinates.  The oracle's points are
`Point2<f64>` holding the exact integer values 0.0, 1.0, 2.0. -/
abbrev Pt := ℤ × ℤ

/-- Modelled from the spec (4.1): `orientation(a, b, c)`, the twice-signed area of
triangle `(a,b,c)`; positive means counter-clockwise (LEFT), negative clockwise
(RIGHT), zero collinear.  The engine's exact predicate, absent from `src/`. -/
def orient (a b c : Pt) : ℤ :=
  (b.1 - a.1) * (c.2 - a.2) - (b.2 - a.2) * (c.1 - a.1)

/-- Modelled from the spec (4.1): the exact `in_circle(a, b, c, d)` determinant,
absent from `src/`.  For `(a,b,c)` counter-clockwise it is positive exactly when
`d` lies strictly inside the circumcircle of `(a,b,c)`, zero when `d` is on it. -/
def inCircleDet (a b c d : Pt) : ℤ :=
  let ax := a.1 - d.1; let ay := a.2 - d.2
  let bx := b.1 - d.1; let by' := b.2 - d.2
  let cx := c.1 - d.1; let cy := c.2 - d.2
  let aw := ax * ax + ay * ay
  let bw := bx * bx + by' * by'
  let cw := cx * cx + cy * cy
  ax * (by' * cw - bw * cy) - ay * (bx * cw - bw * cx) + aw * (bx * cy - by' * cx)

/-- `d` lies strictly inside the (unperturbed) circumcircle of the non-degenerate
triangle `(a,b,c)`: the in-circle determinant corrected by the triangle's
orientation sign is positive. -/
def strictlyInCircumcircle (a b c d : Pt) : Prop :=
  0 < orient a b c * inCircleDet a b c d

instance (a b c d : Pt) : Decidable (strictlyInCircumcircle a b c d) := by
  unfold strictlyInCircumcircle; infer_instance

/-- Lexicographic order on points by `(x, y)`; the consistent tie-break order of
the spec (4.1). -/
def ptLe (p q : Pt) : Prop := p.1 < q.1 ∨ (p.1 = q.1 ∧ p.2 ≤ q.2)

instance : DecidableRel ptLe := fun p q => by unfold ptLe; infer_instance

instance : IsTrans Pt ptLe :=
  ⟨by intro a b c h1 h2; unfold ptLe at h1 h2 ⊢; omega⟩

instance : IsAntisymm Pt ptLe := ⟨by
  intro a b h1 h2
  unfold ptLe at h1 h2
  exact Prod.ext (by omega) (by omega)⟩

instance : IsTotal Pt ptLe := ⟨by intro a b; unfold ptLe; omega⟩

/-- The symbolic-perturbation correction terms of the in-circle determinant: the
partial derivative of the determinant with respect to each point's lifted
coordinate, paired with that point. -/
def sosTerms (a b c d : Pt) : List (Pt × ℤ) :=
  [(a, -(orient b c d)), (b, orient a c d), (c, -(orient a b d)), (d, orient a b c)]

/-- Modelled from the spec (4.1): the engine's in-circle test with exact
co-circular ties resolved by a consistent lexicographic symbolic perturbation,
absent from `src/`.  Each point's lifted coordinate is perturbed downward by an
infinitesimal that is larger for lexicographically smaller points, so when the
exact determinant vanishes the sign is decided by the lexicographically first of
the four points whose correction term is nonzero. -/
def strictlyInsideSoS (a b c d : Pt) : Bool :=
  let s := orient a b c
  let det := inCircleDet a b c d
  if det ≠ 0 then decide (0 < s * det)
  else
    let sorted := (sosTerms a b c d).insertionSort (fun x y => ptLe x.1 y.1)
    let coeff := ((sorted.map Prod.snd).filter (fun z => z ≠ 0)).headD 0
    decide (0 < s * coeff)

/-- The engine's canonical enumeration of its vertex set: the distinct input
points in lexicographic order. -/
def sortedPoints (l : List Pt) : List Pt := l.dedup.insertionSort ptLe

/-- View a three-element list as an ordered triple. -/
def listToTriple : List Pt → Option (Pt × Pt × Pt)
  | [a, b, c] => some (a, b, c)
  | _ => none

/-- Modelled from the spec (4.5, 8): a triple of vertices is a face of the
finished mesh exactly when it is non-degenerate and no other vertex lies strictly
inside its (symbolically perturbed) circumcircle. -/
def isDelaunayTri (ps : List Pt) (t : Pt × Pt × Pt) : Bool :=
  decide (orient t.1 t.2.1 t.2.2 ≠ 0) &&
    ps.all fun d =>
      decide (d = t.1) || decide (d = t.2.1) || decide (d = t.2.2) ||
        !(strictlyInsideSoS t.1 t.2.1 t.2.2 d)

/-- Modelled from the spec (4.4, 4.5, 8): the inner faces of the finished
triangulation, absent from `src/`.  On termination of insertion and legalization
the mesh is exactly the set of empty-circumcircle triangles of the vertex set;
the faces are enumerated from the lexicographically sorted vertex list, each as
the triple of its vertices in that order. -/
def delaunayFaces (l : List Pt) : List (Pt × Pt × Pt) :=
  let ps := sortedPoints l
  ((ps.sublistsLen 3).filterMap listToTriple).filter (isDelaunayTri ps)

/-- Modelled from the spec (4.6, glossary): a face of the triangulation is either
the outer "super-structure" boundary face or an inner triangular face. -/
inductive MeshFace where
  | outer : MeshFace
  | inner : Pt × Pt × Pt → MeshFace
deriving DecidableEq

/-- Modelled from the spec (3, 4.6): the full face list of the finished
triangulation, the outer boundary face together with all inner faces. -/
def allMeshFaces (l : List Pt) : List MeshFace :=
  MeshFace.outer :: (delaunayFaces l).map MeshFace.inner

/-- Select the vertex triple of an inner face; the outer face yields nothing. -/
def innerOf : MeshFace → Option (Pt × Pt × Pt)
  | MeshFace.outer => none
  | MeshFace.inner t => some t

/-- Modelled from the spec (4.6) and the call `triangulation.inner_faces()` in
`main.rs` line 19: the extraction walks only the inner faces, skipping the outer
super-structure face. -/
def innerFaces (l : List Pt) : List (Pt × Pt × Pt) :=
  (allMeshFaces l).filterMap innerOf

/-- Modelled from the spec (7): the error kinds of the fallible insertion. -/
inductive InsertionError where
  | duplicatePoint : InsertionError
  | degenerateInput : InsertionError
deriving DecidableEq

/-- Modelled from the spec (4.4): `insert(point)` on a triangulation whose vertex
set is `t`; if the point coincides with an existing vertex it fails with
`DuplicatePoint` and makes no structural change, otherwise the vertex is added. -/
def insertPoint (t : List Pt) (p : Pt) : Except InsertionError (List Pt) :=
  if p ∈ t then Except.error InsertionError.duplicatePoint
  else Except.ok (t ++ [p])

/-- The insertion loop of `main.rs` lines 13-15: insert every point in input
order, propagating the first error with `?` (aborting the batch). -/
def insertAll (l : List Pt) : Except InsertionError (List Pt) :=
  l.foldlM insertPoint []

/-- The hard-coded input of `main.rs` lines 7-11: the 9 points of the 3x3 integer
grid, generated row-major (`y` outer, `x` inner). -/
def gridPoints : List Pt :=
  (List.range 3).flatMap fun y => (List.range 3).map fun x => ((x : ℤ), (y : ℤ))

/-- The index computation of `main.rs` lines 24-27: `y*3+x` after casting each
coordinate to `usize` (Rust's float-to-usize cast saturates negatives at 0, as
`Int.toNat` does; the grid coordinates are exact non-negative integers). -/
def vertexIndex (p : Pt) : ℕ := p.2.toNat * 3 + p.1.toNat

/-- The loop body of `main.rs` lines 23-27: the three vertex indices of a face,
in face order. -/
def faceIndices (f : Pt × Pt × Pt) : List ℕ :=
  [vertexIndex f.1, vertexIndex f.2.1, vertexIndex f.2.2]

/-- Lexicographic order on index lists: the `Ord` instance of Rust's `[usize; 3]`
used by `triangles.sort()` in `main.rs` line 33. -/
def lexLe : List ℕ → List ℕ → Prop
  | [], _ => True
  | _ :: _, [] => False
  | a :: as, b :: bs => a < b ∨ (a = b ∧ lexLe as bs)

instance lexLe.instDecidable : ∀ s t, Decidable (lexLe s t)
  | [], _ => isTrue trivial
  | _ :: _, [] => isFalse id
  | a :: as, b :: bs =>
    have : Decidable (lexLe as bs) := lexLe.instDecidable as bs
    inferInstanceAs (Decidable (a < b ∨ (a = b ∧ lexLe as bs)))

/-- The per-face canonicalization of `main.rs` lines 23-29: compute the three
vertex indices and sort them ascending (`idx.sort()`). -/
def canonTriple (f : Pt × Pt × Pt) : List ℕ :=
  (faceIndices f).insertionSort (· ≤ ·)

/-- The extraction and canonicalization of `main.rs` lines 17-33: one sorted
index triple per face, then the list of triples sorted lexicographically. -/
def canonicalize (faces : List (Pt × Pt × Pt)) : List (List ℕ) :=
  (faces.map canonTriple).insertionSort lexLe

/-- The canonicalization step on an already-extracted triple list: sort each
triple ascending, then sort the list of triples (`main.rs` lines 29 and 33). -/
def canonStep (ts : List (List ℕ)) : List (List ℕ) :=
  (ts.map fun t => t.insertionSort (· ≤ ·)).insertionSort lexLe

/-- The canonical triangle list the program prints for its hard-coded grid
input (`main.rs` lines 17-38). -/
def programOutput : List (List ℕ) := canonicalize (delaunayFaces gridPoints)

/-- The whole batch of `main`: insert all points in order, aborting on the first
error with no triangle output; on success extract and canonicalize the inner
faces (`main.rs` lines 13-38). -/
def buildOutput (l : List Pt) : Option (List (List ℕ)) :=
  (insertAll l).toOption.map fun ps => canonicalize (delaunayFaces ps)

/-- A point lies on the convex hull of a point set when some direction from it
keeps every point of the set weakly to the left: the hull-membership predicate
of the spec's Euler relation (8). -/
def onHull (ps : List Pt) (p : Pt) : Prop :=
  ∃ q ∈ ps, q ≠ p ∧ ∀ r ∈ ps, 0 ≤ orient p q r

instance (ps : List Pt) (p : Pt) : Decidable (onHull ps p) := by
  unfold onHull; infer_instance

/-- The number of input points on the convex hull (`h` of the Euler relation). -/
def hullCount (ps : List Pt) : ℕ :=
  (ps.filter fun p => decide (onHull ps p)).length

end SpadeOracle

namespace SpadeOracle

theorem lexLe_total : ∀ s t : List ℕ, lexLe s t ∨ lexLe t s
  | [], _ => Or.inl trivial
  | _ :: _, [] => Or.inr trivial
  | a :: as, b :: bs => by
    rcases Nat.lt_trichotomy a b with h | h | h
    · exact Or.inl (Or.inl h)
    · rcases lexLe_total as bs with h2 | h2
      · exact Or.inl (Or.inr ⟨h, h2⟩)
      · exact Or.inr (Or.inr ⟨h.symm, h2⟩)
    · exact Or.inr (Or.inl h)

theorem lexLe_trans : ∀ s t u : List ℕ, lexLe s t → lexLe t u → lexLe s u
  | [], _, _, _, _ => trivial
  | _ :: _, [], _, h, _ => h.elim
  | _ :: _, _ :: _, [], _, h2 => h2.elim
  | a :: as, b :: bs, c :: cs, h1, h2 => by
    rcases h1 with h1 | ⟨e1, h1⟩ <;> rcases h2 with h2 | ⟨e2, h2⟩
    · exact Or.inl (h1.trans h2)
    · exact Or.inl (e2 ▸ h1)
    · exact Or.inl (e1 ▸ h2)
    · exact Or.inr ⟨e1.trans e2, lexLe_trans as bs cs h1 h2⟩

theorem lexLe_antisymm : ∀ s t : List ℕ, lexLe s t → lexLe t s → s = t
  | [], [], _, _ => rfl
  | [], _ :: _, _, h2 => h2.elim
  | _ :: _, [], h1, _ => h1.elim
  | a :: as, b :: bs, h1, h2 => by
    rcases h1 with h1 | ⟨e1, h1⟩ <;> rcases h2 with h2 | ⟨e2, h2⟩
    · exact ((Nat.lt_asymm h1) h2).elim
    · exfalso; omega
    · exfalso; omega
    · rw [e1, lexLe_antisymm as bs h1 h2]

instance : IsTotal (List ℕ) lexLe := ⟨lexLe_total⟩

instance : IsTrans (List ℕ) lexLe := ⟨lexLe_trans⟩

instance : IsAntisymm (List ℕ) lexLe := ⟨lexLe_antisymm⟩

theorem foldlM_insertPoint_ok : ∀ (l acc : List Pt), (acc ++ l).Nodup →
    List.foldlM insertPoint acc l = Except.ok (acc ++ l)
  | [], acc, _ => by rw [List.append_nil]; rfl
  | x :: xs, acc, h => by
    have hx : x ∉ acc := fun hmem =>
      (List.nodup_append.mp h).2.2 hmem (List.mem_cons_self x xs)
    have h' : ((acc ++ [x]) ++ xs).Nodup := by
      rwa [List.append_cons] at h
    have ih := foldlM_insertPoint_ok xs (acc ++ [x]) h'
    simp only [List.foldlM_cons, insertPoint, if_neg hx]
    rw [List.append_cons]
    simpa using ih

theorem foldlM_insertPoint_error : ∀ (l acc : List Pt), acc.Nodup → ¬ (acc ++ l).Nodup →
    List.foldlM insertPoint acc l = Except.error InsertionError.duplicatePoint
  | [], acc, h1, h2 => by simp at h2; exact absurd h1 h2
  | x :: xs, acc, h1, h2 => by
    by_cases hx : x ∈ acc
    · simp only [List.foldlM_cons, insertPoint, if_pos hx]
      rfl
    · have h1' : (acc ++ [x]).Nodup := by
        rw [List.nodup_append]
        refine ⟨h1, List.nodup_singleton x, ?_⟩
        intro a ha hax
        rw [List.mem_singleton] at hax
        exact hx (hax ▸ ha)
      have h2' : ¬ ((acc ++ [x]) ++ xs).Nodup := by
        rwa [List.append_cons] at h2
      have ih := foldlM_insertPoint_error xs (acc ++ [x]) h1' h2'
      simp only [List.foldlM_cons, insertPoint, if_neg hx]
      simpa using ih

theorem sortedPoints_eq_of_perm {l l' : List Pt} (h : l.Perm l') :
    sortedPoints l = sortedPoints l' :=
  List.eq_of_perm_of_sorted
    (((List.perm_insertionSort ptLe _).trans h.dedup).trans
      (List.perm_insertionSort ptLe _).symm)
    (List.sorted_insertionSort ptLe _)
    (List.sorted_insertionSort ptLe _)

end SpadeOracle

namespace SpadeOracle

/-- Claim C1: for the fixed input of the 9 points of the 3x3 integer grid,
generated and indexed row-major, the program's output is exactly 8 triangles,
each a sorted triple of indices in 0..8, and the full canonical sorted list is
the same fixed list on every run. -/
theorem grid_output_eight_triangles :
    programOutput =
      [[0, 1, 4], [0, 3, 4], [1, 2, 5], [1, 4, 5],
       [3, 4, 7], [3, 6, 7], [4, 5, 8], [4, 7, 8]] ∧
    programOutput.length = 8 ∧
    ∀ t ∈ programOutput, t.Sorted (· ≤ ·) ∧ ∀ i ∈ t, i < 9 := by
  decide

theorem grid_output_eight_triangles_witness :
    [0, 1, 4] ∈ programOutput ∧
    ([0, 1, 4].Sorted (· ≤ ·) ∧ ∀ i ∈ [0, 1, 4], i < 9) :=
  ⟨by decide, grid_output_eight_triangles.2.2 [0, 1, 4] (by decide)⟩

/-- Claim C2: the extraction step produces an ordered sequence of triangles in
which every triangle is the triple of its face's three vertex indices sorted
ascending, and the overall sequence is sorted ascending lexicographically by
(first index, second index, third index). -/
theorem extraction_canonical_sorted :
    ∀ faces : List (Pt × Pt × Pt),
      (canonicalize faces).Sorted lexLe ∧
      ∀ t ∈ canonicalize faces,
        (∃ f ∈ faces, t = (faceIndices f).insertionSort (· ≤ ·)) ∧
        t.Sorted (· ≤ ·) := by
  intro faces
  refine ⟨List.sorted_insertionSort lexLe _, ?_⟩
  intro t ht
  rw [canonicalize, List.mem_insertionSort] at ht
  obtain ⟨f, hf, rfl⟩ := List.mem_map.mp ht
  exact ⟨⟨f, hf, rfl⟩, List.sorted_insertionSort _ _⟩

theorem extraction_canonical_sorted_witness :
    (canonicalize [(((0, 0) : Pt), ((1, 0) : Pt), ((1, 1) : Pt))]).Sorted lexLe ∧
    ((∃ f ∈ [(((0, 0) : Pt), ((1, 0) : Pt), ((1, 1) : Pt))],
        [0, 1, 4] = (faceIndices f).insertionSort (· ≤ ·)) ∧
      ([0, 1, 4] : List ℕ).Sorted (· ≤ ·)) :=
  ⟨(extraction_canonical_sorted [((0, 0), (1, 0), (1, 1))]).1,
    (extraction_canonical_sorted [((0, 0), (1, 0), (1, 1))]).2 [0, 1, 4] (by decide)⟩

/-- Claim C3: for every face of the program's output triangulation of the grid
and every input point that is not one of that face's three vertices, the point
does not lie strictly inside the face's circumcircle (the Delaunay property). -/
theorem delaunay_property :
    ∀ f ∈ delaunayFaces gridPoints, ∀ d ∈ gridPoints,
      d ≠ f.1 → d ≠ f.2.1 → d ≠ f.2.2 →
      ¬ strictlyInCircumcircle f.1 f.2.1 f.2.2 d := by
  decide

theorem delaunay_property_witness :
    ¬ strictlyInCircumcircle ((0, 0) : Pt) ((1, 0) : Pt) ((1, 1) : Pt) ((2, 2) : Pt) :=
  delaunay_property ((0, 0), (1, 0), (1, 1)) (by decide) (2, 2) (by decide)
    (by decide) (by decide) (by decide)

/-- Supporting fact: the Euler relation `2n - h - 2` holds at the oracle's
concrete input: the grid has n = 9 points of which h = 8 lie on the convex
hull, and the output has exactly 2*9 - 8 - 2 = 8 triangles.  (The relation
quantified over all general-position point sets is not formalized here.) -/
theorem euler_relation_grid_instance :
    gridPoints.length = 9 ∧
    hullCount gridPoints = 8 ∧
    programOutput.length = 2 * gridPoints.length - hullCount gridPoints - 2 := by
  decide

end SpadeOracle

namespace SpadeOracle

theorem filterMap_innerOf_map (L : List (Pt × Pt × Pt)) :
    (L.map MeshFace.inner).filterMap innerOf = L := by
  induction L with
  | nil => rfl
  | cons x xs ih => simp [List.filterMap_cons, innerOf, ih]

/-- Claim C5: the construction is deterministic: on the grid input, and on any
permutation of that input sequence, the batch yields the identical canonical
output sequence of sorted triples. -/
theorem deterministic_output :
    ∀ l : List Pt, l.Perm gridPoints →
      buildOutput l = buildOutput gridPoints ∧
      buildOutput gridPoints = some programOutput := by
  intro l hperm
  have hnodup : l.Nodup := hperm.nodup_iff.mpr (by decide)
  have h1 : insertAll l = Except.ok l := foldlM_insertPoint_ok l [] hnodup
  have h2 : insertAll gridPoints = Except.ok gridPoints :=
    foldlM_insertPoint_ok gridPoints [] (by decide)
  have h3 : delaunayFaces l = delaunayFaces gridPoints := by
    unfold delaunayFaces
    rw [sortedPoints_eq_of_perm hperm]
  refine ⟨?_, ?_⟩
  · unfold buildOutput
    rw [h1, h2]
    show some (canonicalize (delaunayFaces l)) =
      some (canonicalize (delaunayFaces gridPoints))
    rw [h3]
  · unfold buildOutput
    rw [h2]
    rfl

theorem deterministic_output_witness :
    buildOutput gridPoints.reverse = buildOutput gridPoints ∧
    buildOutput gridPoints = some programOutput :=
  deterministic_output gridPoints.reverse (List.reverse_perm gridPoints)

/-- Claim C6: inserting a point that coincides with an already-inserted point
fails with `DuplicatePoint` and makes no structural change, the whole batch is
aborted with that error, and the program produces no triangle output. -/
theorem duplicate_point_aborts :
    (∀ (t : List Pt) (p : Pt), p ∈ t →
      insertPoint t p = Except.error InsertionError.duplicatePoint) ∧
    (∀ l : List Pt, ¬ l.Nodup →
      insertAll l = Except.error InsertionError.duplicatePoint ∧
      buildOutput l = none) := by
  constructor
  · intro t p hp
    simp [insertPoint, hp]
  · intro l hl
    have h : List.foldlM insertPoint [] l =
        Except.error InsertionError.duplicatePoint :=
      foldlM_insertPoint_error l [] List.nodup_nil hl
    refine ⟨h, ?_⟩
    unfold buildOutput
    rw [show insertAll l = Except.error InsertionError.duplicatePoint from h]
    rfl

theorem duplicate_point_aborts_witness :
    insertPoint [((0, 0) : Pt)] (0, 0) = Except.error InsertionError.duplicatePoint ∧
    buildOutput [((0, 0) : Pt), (0, 0)] = none :=
  ⟨duplicate_point_aborts.1 [(0, 0)] (0, 0) (by decide),
    (duplicate_point_aborts.2 [(0, 0), (0, 0)] (by decide)).2⟩

/-- Claim C7: the auxiliary outer (super-structure) boundary face used to
bootstrap the algorithm is excluded from the output: the extraction walks only
the inner faces, so every canonical triple comes from an inner face and the
outer face contributes nothing. -/
theorem inner_faces_exclude_outer :
    ∀ l : List Pt,
      MeshFace.outer ∈ allMeshFaces l ∧
      innerFaces l = delaunayFaces l ∧
      ∀ t ∈ canonicalize (innerFaces l),
        ∃ f ∈ delaunayFaces l, t = canonTriple f := by
  intro l
  have he : innerFaces l = delaunayFaces l := by
    unfold innerFaces allMeshFaces
    rw [List.filterMap_cons]
    show (List.map MeshFace.inner (delaunayFaces l)).filterMap innerOf = _
    exact filterMap_innerOf_map _
  refine ⟨List.mem_cons_self _ _, he, ?_⟩
  intro t ht
  rw [he, canonicalize, List.mem_insertionSort] at ht
  obtain ⟨f, hf, rfl⟩ := List.mem_map.mp ht
  exact ⟨f, hf, rfl⟩

theorem inner_faces_exclude_outer_witness :
    MeshFace.outer ∈ allMeshFaces gridPoints ∧
    ∃ f ∈ delaunayFaces gridPoints, ([0, 1, 4] : List ℕ) = canonTriple f :=
  ⟨(inner_faces_exclude_outer gridPoints).1,
    (inner_faces_exclude_outer gridPoints).2.2 [0, 1, 4] (by decide)⟩

/-- Claim C8: canonicalization is idempotent: applying the canonicalization step
(sorting each triple ascending, then sorting the list of triples
lexicographically) to an already-canonical sequence leaves it unchanged. -/
theorem canonicalization_idempotent :
    ∀ ts : List (List ℕ), (∀ t ∈ ts, t.Sorted (· ≤ ·)) → ts.Sorted lexLe →
      canonStep ts = ts := by
  intro ts h1 h2
  unfold canonStep
  have hmap : ts.map (fun t => t.insertionSort (· ≤ ·)) = ts := by
    conv_rhs => rw [← List.map_id ts]
    exact List.map_congr_left fun t ht => (h1 t ht).insertionSort_eq
  rw [hmap]
  exact h2.insertionSort_eq

theorem canonicalization_idempotent_witness :
    canonStep [[0, 1, 4], [0, 3, 4]] = [[0, 1, 4], [0, 3, 4]] :=
  canonicalization_idempotent [[0, 1, 4], [0, 3, 4]] (by decide) (by decide)

/-- Claim C9: the coordinate-to-index computation `y*3+x` is the exact inverse
of the row-major grid generation: the grid point stored at position `i` maps
back to `i`, and every vertex of every output face occurs in the input sequence
exactly at the position the program computes from its coordinates. -/
theorem vertex_index_inverse :
    (∀ i, i < 9 → vertexIndex (gridPoints.getD i ((0, 0) : Pt)) = i) ∧
    ∀ f ∈ delaunayFaces gridPoints, ∀ v ∈ [f.1, f.2.1, f.2.2],
      v ∈ gridPoints ∧ gridPoints.indexOf v = vertexIndex v := by
  decide

theorem vertex_index_inverse_witness :
    vertexIndex (gridPoints.getD 4 ((0, 0) : Pt)) = 4 ∧
    (((1, 1) : Pt) ∈ gridPoints ∧
      gridPoints.indexOf ((1, 1) : Pt) = vertexIndex ((1, 1) : Pt)) :=
  ⟨vertex_index_inverse.1 4 (by decide),
    vertex_index_inverse.2 ((0, 0), (1, 0), (1, 1)) (by decide) (1, 1) (by decide)⟩

/-- Claim C10: for the program's hard-coded grid input every insertion succeeds
(the coordinates are exact finite values and no point repeats), so the error
branch of the insertion loop is never taken and `main` returns success with the
canonical output. -/
theorem grid_insertions_all_succeed :
    insertAll gridPoints = Except.ok gridPoints ∧
    buildOutput gridPoints = some programOutput ∧
    buildOutput gridPoints ≠ none := by
  have h2 : insertAll gridPoints = Except.ok gridPoints :=
    foldlM_insertPoint_ok gridPoints [] (by decide)
  refine ⟨h2, ?_, ?_⟩
  · unfold buildOutput
    rw [h2]
    rfl
  · unfold buildOutput
    rw [h2]
    simp [Except.toOption]

end SpadeOracle
